import Mathlib

/-!
Shallow embedding of the promo-code, referral and subscription engines of the
payment-telegram-bot repository, together with proofs checking the
natural-language specification against the code.

Modelling conventions:
- money amounts (Python floats) are rationals, so the numeric policies
  (percentages, minima, clamps) are exact;
- timestamps (Python datetimes) are integers, with timedelta(days = d)
  adding d to the timestamp (only additions and comparisons occur);
- nullable columns are Option values; Python truthiness on a nullable
  numeric column (None and 0 both falsy) is modelled explicitly;
- the str.upper normalisation of promo codes is ASCII character-wise
  uppercasing over the string data;
- each engine operates on an explicit state record holding the relevant
  table contents as lists in insertion order, and a SQLAlchemy
  query(...).filter(...).first() is List.find? over that list.
-/

namespace TelegramBot

/-- ASCII uppercasing of a string, character by character: the embedding of
Python str.upper() as applied to promo codes. -/
def upperAscii (s : String) : String := ⟨s.data.map Char.toUpper⟩

/-- Python truthiness of a nullable integer column: None and 0 are falsy. -/
def optNatTruthy : Option Nat → Bool
  | none => false
  | some n => n != 0

/-- Python truthiness of a nullable float column: None and 0.0 are falsy. -/
def optRatTruthy : Option ℚ → Bool
  | none => false
  | some q => q != 0

/-! ## Promo engine data model (promo_system.py) -/

/-- The PromoCodeType enum of promo_system.py. -/
inductive PromoCodeType where
  | percentage
  | fixed
  | free_service
  deriving DecidableEq, Repr

/-- The PromoCode model of promo_system.py (columns relevant to the engine). -/
structure PromoCode where
  id : Nat
  code : String
  promo_type : PromoCodeType
  discount_value : ℚ
  max_discount : Option ℚ
  min_order_amount : ℚ
  valid_from : Option Int
  valid_to : Option Int
  max_uses : Option Nat
  current_uses : Nat
  is_active : Bool
  deriving DecidableEq, Repr

/-- The PromoCodeUsage model of promo_system.py. -/
structure PromoCodeUsage where
  promo_code_id : Nat
  user_id : Nat
  order_amount : ℚ
  discount_applied : ℚ
  deriving DecidableEq, Repr

/-- The persisted state the promo engine reads and writes: the promo_codes
and promo_code_usages tables, as lists in insertion order. -/
structure PromoState where
  codes : List PromoCode
  usages : List PromoCodeUsage
  deriving DecidableEq, Repr

/-- The result of _calculate_discount: the discount_amount and final_amount
entries of the returned dict. -/
structure DiscountInfo where
  discount_amount : ℚ
  final_amount : ℚ
  deriving DecidableEq, Repr

/-- Embedding of PromoSystem._calculate_discount.  For a percentage code the
clamp runs only when max_discount is truthy (not None and nonzero) and the
raw discount exceeds it, mirroring the Python condition
if promo_code.max_discount and discount_amount > promo_code.max_discount. -/
def calculate_discount (p : PromoCode) (order_amount : ℚ) : DiscountInfo :=
  match p.promo_type with
  | .percentage =>
    let d0 := order_amount * (p.discount_value / 100)
    let d := match p.max_discount with
      | some m => if m ≠ 0 ∧ d0 > m then m else d0
      | none => d0
    ⟨d, order_amount - d⟩
  | .fixed =>
    let d := min p.discount_value order_amount
    ⟨d, order_amount - d⟩
  | .free_service =>
    ⟨order_amount, 0⟩

/-- The reasons validate_promo_code can reject with, one per early return. -/
inductive RejectReason where
  | notFound
  | notYetActive
  | expiredWindow
  | usageLimitReached
  | belowMinOrder
  | alreadyUsed
  deriving DecidableEq, Repr

/-- The result of validate_promo_code: either a rejection with its reason or
a valid result carrying the resolved promo id and the computed discount. -/
inductive ValidateResult where
  | invalid (reason : RejectReason)
  | valid (promo_id : Nat) (discount_amount final_amount : ℚ)
  deriving DecidableEq, Repr

/-- The lookup query of validate_promo_code: first promo whose code equals
the uppercased input and which is active. -/
def findPromoByCode (codes : List PromoCode) (code : String) : Option PromoCode :=
  codes.find? (fun p => p.code == upperAscii code && p.is_active)

/-- The valid_from check of validate_promo_code: a datetime column is always
truthy when set, so the check fires iff valid_from is set and after now. -/
def notYetStarted (p : PromoCode) (now : Int) : Bool :=
  p.valid_from.any fun vf => decide (vf > now)

/-- The valid_to check of validate_promo_code: fires iff valid_to is set and
before now. -/
def windowExpired (p : PromoCode) (now : Int) : Bool :=
  p.valid_to.any fun vt => decide (vt < now)

/-- The usage-cap check of validate_promo_code: Python evaluates
promo_code.max_uses truthily, so the check fires only when max_uses is set
and nonzero and current_uses has reached it. -/
def usageLimitHit (p : PromoCode) : Bool :=
  match p.max_uses with
  | none => false
  | some m => m != 0 && decide (p.current_uses ≥ m)

/-- The per-user single-use query of validate_promo_code: does a usage row
for this promo and user already exist. -/
def userAlreadyUsed (usages : List PromoCodeUsage) (promo_id user_id : Nat) : Bool :=
  usages.any (fun u => u.promo_code_id == promo_id && u.user_id == user_id)

/-- The minimum-order check of validate_promo_code. -/
def belowMinOrderCheck (p : PromoCode) (order_amount : ℚ) : Bool :=
  decide (order_amount < p.min_order_amount)

/-- Embedding of PromoSystem.validate_promo_code: the chain of early returns
of the Python function, in source order. -/
def validate_promo_code (st : PromoState) (code : String) (user_id : Nat)
    (order_amount : ℚ) (now : Int) : ValidateResult :=
  match findPromoByCode st.codes code with
  | none => .invalid .notFound
  | some p =>
    if notYetStarted p now then .invalid .notYetActive
    else if windowExpired p now then .invalid .expiredWindow
    else if usageLimitHit p then .invalid .usageLimitReached
    else if belowMinOrderCheck p order_amount then .invalid .belowMinOrder
    else if userAlreadyUsed st.usages p.id user_id then .invalid .alreadyUsed
    else
      let d := calculate_discount p order_amount
      .valid p.id d.discount_amount d.final_amount

/-- The claim-side reading of validate (spec section 4.1): the ordered list
of checks after lookup, each paired with its rejection reason; the result is
the reason of the first failing check, and the discount is computed only
when none fails. -/
def claimCheckList (st : PromoState) (p : PromoCode) (user_id : Nat)
    (order_amount : ℚ) (now : Int) : List (Bool × RejectReason) :=
  [ (notYetStarted p now, .notYetActive),
    (windowExpired p now, .expiredWindow),
    (usageLimitHit p, .usageLimitReached),
    (belowMinOrderCheck p order_amount, .belowMinOrder),
    (userAlreadyUsed st.usages p.id user_id, .alreadyUsed) ]

/-- Validation as the claim states it: not-found first, then the first
failing check of the ordered list gives the reason, and only when every
check passes is the discount computed. -/
def validateClaim (st : PromoState) (code : String) (user_id : Nat)
    (order_amount : ℚ) (now : Int) : ValidateResult :=
  match findPromoByCode st.codes code with
  | none => .invalid .notFound
  | some p =>
    match (claimCheckList st p user_id order_amount now).find? (fun c => c.1) with
    | some c => .invalid c.2
    | none =>
      let d := calculate_discount p order_amount
      .valid p.id d.discount_amount d.final_amount

/-- Discount computation exactly as claim C2 words it: for a percentage code
the discount is clamped down to max_discount whenever max_discount is set. -/
def claimDiscount (p : PromoCode) (order_amount : ℚ) : DiscountInfo :=
  match p.promo_type with
  | .percentage =>
    let d := match p.max_discount with
      | some m => min (order_amount * (p.discount_value / 100)) m
      | none => order_amount * (p.discount_value / 100)
    ⟨d, order_amount - d⟩
  | .fixed =>
    let d := min p.discount_value order_amount
    ⟨d, order_amount - d⟩
  | .free_service => ⟨order_amount, 0⟩

/-- Discount computation as claim C2 must be amended: the percentage clamp
applies only when max_discount is set and nonzero, because Python treats a
stored 0.0 cap as falsy and skips the clamp. -/
def claimDiscountAmended (p : PromoCode) (order_amount : ℚ) : DiscountInfo :=
  match p.promo_type with
  | .percentage =>
    let d0 := order_amount * (p.discount_value / 100)
    let d := match p.max_discount with
      | some m => if m ≠ 0 then min d0 m else d0
      | none => d0
    ⟨d, order_amount - d⟩
  | .fixed =>
    let d := min p.discount_value order_amount
    ⟨d, order_amount - d⟩
  | .free_service => ⟨order_amount, 0⟩

/-- A ten-percent promo code used for concrete witnesses. -/
def promoTenW : PromoCode :=
  { id := 1, code := "PROMO10", promo_type := .percentage, discount_value := 10,
    max_discount := none, min_order_amount := 0, valid_from := none,
    valid_to := none, max_uses := none, current_uses := 0, is_active := true }

/-- A one-element promo table used for concrete witnesses. -/
def promoStateW : PromoState := ⟨[promoTenW], []⟩

/-- A percentage promo whose max_discount column holds 0.0: set, yet falsy
for Python, so the clamp of _calculate_discount is skipped. -/
def zeroCapPromo : PromoCode :=
  { id := 2, code := "ZEROCAP", promo_type := .percentage, discount_value := 10,
    max_discount := some 0, min_order_amount := 0, valid_from := none,
    valid_to := none, max_uses := none, current_uses := 0, is_active := true }

/-- A fixed-discount promo larger than the order, for the C2 witness. -/
def fixedPromoW : PromoCode :=
  { id := 3, code := "FIX200", promo_type := .fixed, discount_value := 200,
    max_discount := none, min_order_amount := 0, valid_from := none,
    valid_to := none, max_uses := none, current_uses := 0, is_active := true }

/-- In-place mutation of the single row returned by query(...).first():
replace the first element satisfying the predicate, leaving the rest. -/
def updateFirst {α : Type} (q : α → Bool) (f : α → α) : List α → List α
  | [] => []
  | x :: xs => if q x then f x :: xs else x :: updateFirst q f xs

/-- Embedding of PromoSystem.create_promo_code.  The duplicate check
compares the raw argument against stored codes, while the stored code is
uppercased; a duplicate raises ValueError, modelled as none. -/
def create_promo_code (st : PromoState) (code : String) (promo_type : PromoCodeType)
    (discount_value : ℚ) (valid_to : Option Int) (max_uses : Option Nat)
    (max_discount : Option ℚ) (min_order_amount : ℚ) (newId : Nat) (now : Int) :
    Option (PromoCode × PromoState) :=
  if st.codes.any (fun p => p.code == code) then none
  else
    let p : PromoCode :=
      { id := newId, code := upperAscii code, promo_type := promo_type,
        discount_value := discount_value, max_discount := max_discount,
        min_order_amount := min_order_amount, valid_from := some now,
        valid_to := valid_to, max_uses := max_uses, current_uses := 0,
        is_active := true }
    some (p, { st with codes := st.codes ++ [p] })

/-- The post-increment cap check of apply_promo_code: Python truthiness on
max_uses, then current_uses (already incremented) compared with the cap. -/
def capReachedAfter (mu : Option Nat) (uses : Nat) : Bool :=
  match mu with
  | none => false
  | some m => m != 0 && decide (uses ≥ m)

/-- The result of apply_promo_code. -/
inductive ApplyResult where
  | failure
  | success (discount_amount final_amount : ℚ)
  deriving DecidableEq, Repr

/-- Embedding of PromoSystem.apply_promo_code: looks the promo up by id
(with no activity, cap or prior-usage check), recomputes the discount with
_calculate_discount, inserts a usage row, increments current_uses and
deactivates the code when the incremented count reaches the cap. -/
def apply_promo_code (st : PromoState) (promo_code_id user_id : Nat)
    (order_amount : ℚ) : ApplyResult × PromoState :=
  match st.codes.find? (fun p => p.id == promo_code_id) with
  | none => (.failure, st)
  | some p =>
    let d := calculate_discount p order_amount
    let usage : PromoCodeUsage :=
      ⟨promo_code_id, user_id, order_amount, d.discount_amount⟩
    let st' : PromoState :=
      { codes := updateFirst (fun q => q.id == promo_code_id)
          (fun q =>
            { q with current_uses := q.current_uses + 1,
                     is_active :=
                       if capReachedAfter q.max_uses (q.current_uses + 1)
                       then false else q.is_active }) st.codes,
        usages := st.usages ++ [usage] }
    (.success d.discount_amount d.final_amount, st')

/-! ## Referral engine data model (referral_system.py) -/

/-- The ReferralLink model of referral_system.py (engine-relevant columns). -/
structure ReferralLink where
  id : Nat
  user_id : Nat
  code : String
  is_active : Bool
  max_uses : Option Nat
  current_uses : Nat
  reward_amount : ℚ
  reward_percent : ℚ
  deriving DecidableEq, Repr

/-- The Referral model of referral_system.py (engine-relevant columns). -/
structure Referral where
  referrer_id : Nat
  referred_id : Nat
  referral_link_id : Option Nat
  deriving DecidableEq, Repr

/-- The persisted state of the referral engine: the referral_links and
referrals tables. -/
structure RefState where
  links : List ReferralLink
  referrals : List Referral
  deriving DecidableEq, Repr

/-- The link lookup of register_referral: first link with the given code
that is active and belongs to the claimed referrer. -/
def findReferralLink (links : List ReferralLink) (referrer_id : Nat) (code : String) :
    Option ReferralLink :=
  links.find? (fun l => l.code == code && l.is_active && l.user_id == referrer_id)

/-- The use-cap check of register_referral: Python truthiness on max_uses,
then the current counter compared with it. -/
def linkCapReached (l : ReferralLink) : Bool :=
  match l.max_uses with
  | none => false
  | some m => m != 0 && decide (l.current_uses ≥ m)

/-- Embedding of ReferralSystem.register_referral.  An already-referred user
fails; a supplied code (None and the empty string are falsy, hence no code)
attributes the referral to the matching link of the referrer if one exists,
but a matching link at its use cap makes the call fail with nothing
recorded; with no matching link the referral is recorded unattributed. -/
def register_referral (st : RefState) (referrer_id referred_id : Nat)
    (referral_code : Option String) : Bool × RefState :=
  if st.referrals.any (fun r => r.referred_id == referred_id) then (false, st)
  else
    match referral_code with
    | some c =>
      if c == "" then
        (true, { st with
          referrals := st.referrals ++ [⟨referrer_id, referred_id, none⟩] })
      else
        match findReferralLink st.links referrer_id c with
        | some l =>
          if linkCapReached l then (false, st)
          else
            (true,
              { links := updateFirst
                  (fun k => k.code == c && k.is_active && k.user_id == referrer_id)
                  (fun k => { k with current_uses := k.current_uses + 1 }) st.links,
                referrals := st.referrals ++ [⟨referrer_id, referred_id, some l.id⟩] })
        | none =>
          (true, { st with
            referrals := st.referrals ++ [⟨referrer_id, referred_id, none⟩] })
    | none =>
      (true, { st with
        referrals := st.referrals ++ [⟨referrer_id, referred_id, none⟩] })

/-- Embedding of ReferralSystem.calculate_referral_reward: a found
attributing link with positive reward_percent gives a percentage of the
payment, a found link otherwise gives its flat reward_amount, and a missing
or unattributed link falls back to the global ten-percent default. -/
def calculate_referral_reward (st : RefState) (payment_amount : ℚ) (r : Referral) : ℚ :=
  match r.referral_link_id with
  | some lid =>
    match st.links.find? (fun l => l.id == lid) with
    | some l =>
      if l.reward_percent > 0 then payment_amount * (l.reward_percent / 100)
      else l.reward_amount
    | none => payment_amount * (1 / 10)
  | none => payment_amount * (1 / 10)

/-! ## Subscription engine data model (subscription_system.py, database.py) -/

/-- The SubscriptionStatus enum of subscription_system.py. -/
inductive SubscriptionStatus where
  | active
  | pending
  | expired
  | cancelled
  | paused
  deriving DecidableEq, Repr

/-- The SubscriptionPlan model (engine-relevant columns). -/
structure SubscriptionPlan where
  id : Nat
  price : ℚ
  billing_cycle_days : Int
  trial_period_days : Int
  is_active : Bool
  max_cancellations : Nat
  auto_renewal : Bool
  deriving DecidableEq, Repr

/-- The UserSubscription model (engine-relevant columns). -/
structure UserSubscription where
  id : Nat
  user_id : Nat
  plan_id : Nat
  status : SubscriptionStatus
  start_date : Int
  end_date : Int
  next_billing_date : Int
  trial_end_date : Option Int
  auto_renewal : Bool
  cancellation_count : Nat
  total_paid : ℚ
  payment_method_id : Option String
  last_payment_id : Option Nat
  updated_at : Int
  deriving DecidableEq, Repr

/-- The status column of the Payment model of database.py, restricted to the
values the billing sweep writes. -/
inductive PaymentStatus where
  | pending
  | completed
  deriving DecidableEq, Repr

/-- The Payment model of database.py (columns the billing sweep writes). -/
structure Payment where
  user_id : Nat
  amount : ℚ
  status : PaymentStatus
  completed_at : Option Int
  deriving DecidableEq, Repr

/-- The persisted state of the subscription engine: plans, subscriptions and
payments tables. -/
structure SubState where
  plans : List SubscriptionPlan
  subs : List UserSubscription
  payments : List Payment
  deriving DecidableEq, Repr

/-- The plan lookup of subscribe_user: by id and active. -/
def findActivePlan (plans : List SubscriptionPlan) (plan_id : Nat) :
    Option SubscriptionPlan :=
  plans.find? (fun pl => pl.id == plan_id && pl.is_active)

/-- The duplicate-subscription check of subscribe_user: does this user
already hold an active subscription (for any plan). -/
def hasActiveSubscription (subs : List UserSubscription) (user_id : Nat) : Bool :=
  subs.any (fun s => s.user_id == user_id && s.status == .active)

/-- Embedding of SubscriptionSystem.subscribe_user: fails (None, no new row)
when the plan is missing or inactive or the user already has an active
subscription; otherwise inserts a new subscription whose dates follow the
trial logic of the source. -/
def subscribe_user (st : SubState) (user_id plan_id : Nat)
    (payment_method_id : Option String) (now : Int) (newId : Nat) :
    Option UserSubscription × SubState :=
  match findActivePlan st.plans plan_id with
  | none => (none, st)
  | some plan =>
    if hasActiveSubscription st.subs user_id then (none, st)
    else
      let cycleEnd := now + plan.billing_cycle_days
      let dates :=
        if plan.trial_period_days > 0 then
          let te := now + plan.trial_period_days
          (some te, te + plan.billing_cycle_days, te)
        else (none, cycleEnd, cycleEnd)
      let sub : UserSubscription :=
        { id := newId, user_id := user_id, plan_id := plan_id, status := .active,
          start_date := now, end_date := dates.2.1,
          next_billing_date := dates.2.2, trial_end_date := dates.1,
          auto_renewal := plan.auto_renewal, cancellation_count := 0,
          total_paid := 0, payment_method_id := payment_method_id,
          last_payment_id := none, updated_at := now }
      (some sub, { st with subs := st.subs ++ [sub] })

/-- Embedding of SubscriptionSystem.cancel_subscription: finds the
subscription by id and user (with no constraint on its status), requires its
plan to exist and the cancellation count to be under the plan cap, then sets
status cancelled, disables auto-renewal and increments the count. -/
def cancel_subscription (st : SubState) (user_id subscription_id : Nat) (now : Int) :
    Bool × SubState :=
  match st.subs.find? (fun s => s.id == subscription_id && s.user_id == user_id) with
  | none => (false, st)
  | some sub =>
    match st.plans.find? (fun pl => pl.id == sub.plan_id) with
    | none => (false, st)
    | some plan =>
      if sub.cancellation_count ≥ plan.max_cancellations then (false, st)
      else
        let newSubs := updateFirst
          (fun s => s.id == subscription_id && s.user_id == user_id)
          (fun s =>
            { s with
              status := .cancelled
              auto_renewal := false
              cancellation_count := s.cancellation_count + 1
              updated_at := now }) st.subs
        (true, { st with subs := newSubs })

/-- Embedding of SubscriptionSystem.pause_subscription: only a subscription
of this user found with status active is moved to paused. -/
def pause_subscription (st : SubState) (user_id subscription_id : Nat) (now : Int) :
    Bool × SubState :=
  match st.subs.find? (fun s =>
      s.id == subscription_id && s.user_id == user_id && s.status == .active) with
  | none => (false, st)
  | some _ =>
    let newSubs := updateFirst
      (fun s => s.id == subscription_id && s.user_id == user_id && s.status == .active)
      (fun s => { s with status := .paused, updated_at := now }) st.subs
    (true, { st with subs := newSubs })

/-- Embedding of SubscriptionSystem.resume_subscription: only a subscription
of this user found with status paused is moved back to active. -/
def resume_subscription (st : SubState) (user_id subscription_id : Nat) (now : Int) :
    Bool × SubState :=
  match st.subs.find? (fun s =>
      s.id == subscription_id && s.user_id == user_id && s.status == .paused) with
  | none => (false, st)
  | some _ =>
    let newSubs := updateFirst
      (fun s => s.id == subscription_id && s.user_id == user_id && s.status == .paused)
      (fun s => { s with status := .active, updated_at := now }) st.subs
    (true, { st with subs := newSubs })

/-- The due-subscription filter of process_recurring_payments: active,
auto-renewing, next billing date reached, saved payment method present. -/
def isDue (now : Int) (s : UserSubscription) : Bool :=
  s.status == .active && s.auto_renewal && decide (s.next_billing_date ≤ now)
    && s.payment_method_id.isSome

/-- One iteration of the billing loop of process_recurring_payments for the
subscription with the given id.  The fails oracle marks subscriptions whose
charge step raises: the surrounding try/except then leaves the already
committed pending payment behind and continues with the next item.  On the
success path (the source marks every demo charge successful) the payment is
completed, total_paid grows by the plan price, next_billing_date advances by
billing_cycle_days and end_date is set to the new next_billing_date. -/
def processRecurringOne (fails : Nat → Bool) (now : Int) (st : SubState) (sid : Nat) :
    SubState :=
  match st.subs.find? (fun s => s.id == sid) with
  | none => st
  | some sub =>
    match st.plans.find? (fun pl => pl.id == sub.plan_id) with
    | none => st
    | some plan =>
      if !plan.is_active then st
      else
        let pendingPayment : Payment := ⟨sub.user_id, plan.price, .pending, none⟩
        if fails sid then { st with payments := st.payments ++ [pendingPayment] }
        else
          let pid := st.payments.length
          { st with
            payments := st.payments ++
              [{ pendingPayment with status := .completed, completed_at := some now }],
            subs := updateFirst (fun s => s.id == sid)
              (fun s => { s with
                last_payment_id := some pid,
                total_paid := s.total_paid + plan.price,
                next_billing_date := s.next_billing_date + plan.billing_cycle_days,
                end_date := s.next_billing_date + plan.billing_cycle_days,
                updated_at := now }) st.subs }

/-- Embedding of SubscriptionSystem.process_recurring_payments: the due set
is selected once, then each due subscription is processed in order, an item
whose charge raises being skipped without aborting the rest. -/
def process_recurring_payments (st : SubState) (now : Int) (fails : Nat → Bool) :
    SubState :=
  ((st.subs.filter (isDue now)).map (fun s => s.id)).foldl
    (processRecurringOne fails now) st

/-- Embedding of SubscriptionSystem.check_expired_subscriptions: every
active subscription whose end_date has passed is moved to expired. -/
def check_expired_subscriptions (st : SubState) (now : Int) : SubState :=
  { st with subs := st.subs.map (fun s =>
      if s.status == .active && decide (s.end_date ≤ now)
      then { s with status := .expired, updated_at := now } else s) }

/-- The subscription fields claim C10 asserts are untouched by pause and
resume. -/
def frameFields (s : UserSubscription) :
    Int × Int × Option Int × ℚ × Nat × Bool × Option String :=
  (s.end_date, s.next_billing_date, s.trial_end_date, s.total_paid,
   s.cancellation_count, s.auto_renewal, s.payment_method_id)

/-- A plan used in concrete subscription scenarios: 100 per 30-day cycle,
no trial, at most one cancellation. -/
def planW : SubscriptionPlan :=
  { id := 1, price := 100, billing_cycle_days := 30, trial_period_days := 0,
    is_active := true, max_cancellations := 1, auto_renewal := true }

/-- An active subscription of user 5 to planW. -/
def activeSubW : UserSubscription :=
  { id := 1, user_id := 5, plan_id := 1, status := .active, start_date := 0,
    end_date := 30, next_billing_date := 30, trial_end_date := none,
    auto_renewal := true, cancellation_count := 0, total_paid := 0,
    payment_method_id := none, last_payment_id := none, updated_at := 0 }

/-- A paused subscription of user 5 to planW. -/
def pausedSubW : UserSubscription :=
  { activeSubW with status := .paused }

/-- State with one active subscription. -/
def activeStateW : SubState := ⟨[planW], [activeSubW], []⟩

/-- State with one paused subscription. -/
def pausedStateW : SubState := ⟨[planW], [pausedSubW], []⟩

/-- State with plans only, no subscriptions. -/
def noSubStateW : SubState := ⟨[planW], [], []⟩

/-- A free-service promo capped at one use, fresh. -/
def singleUsePromo : PromoCode :=
  { id := 4, code := "ONCE", promo_type := .free_service, discount_value := 0,
    max_discount := none, min_order_amount := 0, valid_from := none,
    valid_to := none, max_uses := some 1, current_uses := 0, is_active := true }

/-- State holding only the fresh single-use promo. -/
def singleUseStateW : PromoState := ⟨[singleUsePromo], []⟩

/-- A referral link at its use cap (one use allowed, one recorded). -/
def cappedLink : ReferralLink :=
  { id := 9, user_id := 10, code := "REF", is_active := true, max_uses := some 1,
    current_uses := 1, reward_amount := 0, reward_percent := 10 }

/-- Referral state holding only the capped link and no referrals. -/
def refStateAtCapW : RefState := ⟨[cappedLink], []⟩

/-- A referral link paying twenty percent. -/
def link20W : ReferralLink :=
  { id := 1, user_id := 10, code := "R20", is_active := true, max_uses := none,
    current_uses := 0, reward_amount := 0, reward_percent := 20 }

/-- Referral state holding only the twenty-percent link. -/
def rewardStateW : RefState := ⟨[link20W], []⟩

/-- A referral attributed to the twenty-percent link. -/
def referral20W : Referral := ⟨10, 20, some 1⟩

/-- A referral with no attributing link. -/
def referralNoLinkW : Referral := ⟨10, 21, none⟩

/-- A due subscription in its post-trial shape: end_date sits one cycle
after next_billing_date, with a saved payment method. -/
def dueTrialSubW : UserSubscription :=
  { id := 1, user_id := 5, plan_id := 1, status := .active, start_date := 0,
    end_date := 40, next_billing_date := 10, trial_end_date := some 10,
    auto_renewal := true, cancellation_count := 0, total_paid := 0,
    payment_method_id := some "pm", last_payment_id := none, updated_at := 0 }

/-- A due, active, auto-renewing subscription without a saved payment
method. -/
def dueNoPmSubW : UserSubscription :=
  { id := 2, user_id := 6, plan_id := 1, status := .active, start_date := 0,
    end_date := 40, next_billing_date := 10, trial_end_date := none,
    auto_renewal := true, cancellation_count := 0, total_paid := 0,
    payment_method_id := none, last_payment_id := none, updated_at := 0 }

/-- State with both due subscriptions on the 30-day concrete plan. -/
def dueStateW : SubState := ⟨[planW], [dueTrialSubW, dueNoPmSubW], []⟩

/-! ## Theorems -/

/-- Helper: updateFirst preserves every projection the update leaves
invariant, rowwise. -/
theorem updateFirst_map_eq {α β : Type} (q : α → Bool) (f : α → α) (g : α → β)
    (hg : ∀ a, g (f a) = g a) : ∀ l : List α, (updateFirst q f l).map g = l.map g
  | [] => rfl
  | x :: xs => by
    by_cases hq : q x
    · simp [updateFirst, hq, hg]
    · simp [updateFirst, hq, updateFirst_map_eq q f g hg xs]

/-- Helper: the updated image of the row found by find? belongs to the
updated list. -/
theorem mem_updateFirst_of_find? {α : Type} (q : α → Bool) (f : α → α) :
    ∀ (l : List α) (a : α), l.find? q = some a → f a ∈ updateFirst q f l
  | [], a, h => by simp [List.find?] at h
  | x :: xs, a, h => by
    by_cases hq : q x
    · rw [List.find?_cons_of_pos _ hq, Option.some_inj] at h
      subst h
      simp [updateFirst, hq]
    · rw [List.find?_cons_of_neg _ hq] at h
      have hrec := mem_updateFirst_of_find? q f xs a h
      simp only [updateFirst, hq, if_false, Bool.false_eq_true, List.mem_cons]
      exact Or.inr hrec

/-- Helper: a row not satisfying the predicate survives updateFirst
unchanged. -/
theorem mem_updateFirst_of_neg {α : Type} (q : α → Bool) (f : α → α) :
    ∀ (l : List α) (a : α), a ∈ l → q a = false → a ∈ updateFirst q f l
  | x :: xs, a, hm, hq => by
    rcases List.mem_cons.mp hm with h | h
    · subst h
      simp [updateFirst, hq]
    · by_cases hqx : q x
      · simp only [updateFirst, hqx, if_true, List.mem_cons]
        exact Or.inr h
      · simp only [updateFirst, hqx, if_false, Bool.false_eq_true, List.mem_cons]
        exact Or.inr (mem_updateFirst_of_neg q f xs a h hq)

/-- Helper: every row of an updateFirst image is an old row or the update of
an old row satisfying the predicate. -/
theorem mem_of_mem_updateFirst {α : Type} (q : α → Bool) (f : α → α) :
    ∀ (l : List α) (b : α), b ∈ updateFirst q f l →
      b ∈ l ∨ ∃ a, a ∈ l ∧ q a = true ∧ b = f a
  | [], b, h => by simp [updateFirst] at h
  | x :: xs, b, h => by
    by_cases hqx : q x
    · simp only [updateFirst, hqx, if_true, List.mem_cons] at h
      rcases h with h | h
      · exact Or.inr ⟨x, List.mem_cons_self x xs, hqx, h⟩
      · exact Or.inl (List.mem_cons_of_mem x h)
    · simp only [updateFirst, hqx, if_false, Bool.false_eq_true, List.mem_cons] at h
      rcases h with h | h
      · exact Or.inl (h ▸ List.mem_cons_self x xs)
      · rcases mem_of_mem_updateFirst q f xs b h with h | ⟨a, ha, hqa, hb⟩
        · exact Or.inl (List.mem_cons_of_mem x h)
        · exact Or.inr ⟨a, List.mem_cons_of_mem x ha, hqa, hb⟩

/-- Helper: in a list whose keys are nodup, find? by the key of a member
returns that member. -/
theorem find?_key_eq_of_nodup {α : Type} (key : α → Nat) :
    ∀ (l : List α) (a : α), (l.map key).Nodup → a ∈ l →
      l.find? (fun x => key x == key a) = some a
  | [], a, _, hm => absurd hm (List.not_mem_nil a)
  | x :: xs, a, hnd, hm => by
    rw [List.map_cons, List.nodup_cons] at hnd
    rcases List.mem_cons.mp hm with h | h
    · subst h
      exact List.find?_cons_of_pos _ (by simp)
    · have hne : key x ≠ key a := by
        intro he
        exact hnd.1 (he ▸ List.mem_map_of_mem key h)
      rw [List.find?_cons_of_neg _ (by simp [hne])]
      exact find?_key_eq_of_nodup key xs a hnd.2 h

/-- C10: when pause_subscription or resume_subscription succeeds, every
subscription row keeps its end_date, next_billing_date, trial_end_date,
total_paid, cancellation_count, auto_renewal and payment_method_id — only
status and updated_at change, so pausing credits no time back and a resumed
subscription keeps its original expiry and billing dates. -/
theorem pause_resume_change_only_status_and_updated_at
    (st : SubState) (user_id subscription_id : Nat) (now : Int) :
    (∀ stp, pause_subscription st user_id subscription_id now = (true, stp) →
      stp.subs.map frameFields = st.subs.map frameFields)
    ∧ (∀ str, resume_subscription st user_id subscription_id now = (true, str) →
      str.subs.map frameFields = st.subs.map frameFields) := by
  constructor
  · intro stp hp
    unfold pause_subscription at hp
    cases hf : st.subs.find? (fun s =>
        s.id == subscription_id && s.user_id == user_id && s.status == .active) with
    | none => rw [hf] at hp; simp at hp
    | some s0 =>
      rw [hf] at hp
      simp only [Prod.mk.injEq, true_and] at hp
      rw [← hp]
      exact updateFirst_map_eq
        (fun s => s.id == subscription_id && s.user_id == user_id && s.status == .active)
        (fun s => { s with status := .paused, updated_at := now })
        frameFields (fun a => rfl) st.subs
  · intro str hr
    unfold resume_subscription at hr
    cases hf : st.subs.find? (fun s =>
        s.id == subscription_id && s.user_id == user_id && s.status == .paused) with
    | none => rw [hf] at hr; simp at hr
    | some s0 =>
      rw [hf] at hr
      simp only [Prod.mk.injEq, true_and] at hr
      rw [← hr]
      exact updateFirst_map_eq
        (fun s => s.id == subscription_id && s.user_id == user_id && s.status == .paused)
        (fun s => { s with status := .active, updated_at := now })
        frameFields (fun a => rfl) st.subs

/-- C10 witness: pausing the concrete active subscription changes none of
the frame fields. -/
theorem pause_resume_change_only_status_and_updated_at_witness :
    (pause_subscription activeStateW 5 1 9).2.subs.map frameFields
      = activeStateW.subs.map frameFields :=
  (pause_resume_change_only_status_and_updated_at activeStateW 5 1 9).1
    (pause_subscription activeStateW 5 1 9).2 rfl

/-- C5: subscribe_user fails, creating no new subscription row, when the
plan is missing or inactive or the user already has an active subscription
for any plan; on success without a trial, end_date and next_billing_date
both equal now plus billing_cycle_days; with a trial, next_billing_date is
now plus trial_period_days and end_date is that plus billing_cycle_days. -/
theorem subscribe_user_claim (st : SubState) (user_id plan_id : Nat)
    (pm : Option String) (now : Int) (newId : Nat) :
    (findActivePlan st.plans plan_id = none →
      subscribe_user st user_id plan_id pm now newId = (none, st))
    ∧ (∀ plan, findActivePlan st.plans plan_id = some plan →
        hasActiveSubscription st.subs user_id = true →
        subscribe_user st user_id plan_id pm now newId = (none, st))
    ∧ (∀ plan, findActivePlan st.plans plan_id = some plan →
        hasActiveSubscription st.subs user_id = false →
        plan.trial_period_days = 0 →
        ∃ sub, subscribe_user st user_id plan_id pm now newId
            = (some sub, { st with subs := st.subs ++ [sub] })
          ∧ sub.end_date = now + plan.billing_cycle_days
          ∧ sub.next_billing_date = now + plan.billing_cycle_days)
    ∧ (∀ plan, findActivePlan st.plans plan_id = some plan →
        hasActiveSubscription st.subs user_id = false →
        plan.trial_period_days > 0 →
        ∃ sub, subscribe_user st user_id plan_id pm now newId
            = (some sub, { st with subs := st.subs ++ [sub] })
          ∧ sub.next_billing_date = now + plan.trial_period_days
          ∧ sub.end_date = now + plan.trial_period_days + plan.billing_cycle_days) := by
  refine ⟨?_, ?_, ?_, ?_⟩
  · intro h
    unfold subscribe_user
    rw [h]
  · intro plan hp ha
    unfold subscribe_user
    rw [hp, ha]
    rfl
  · intro plan hp ha ht
    unfold subscribe_user
    rw [hp, ha]
    simp only [Bool.false_eq_true, if_false, ht, gt_iff_lt, lt_irrefl]
    exact ⟨_, rfl, rfl, rfl⟩
  · intro plan hp ha ht
    unfold subscribe_user
    rw [hp, ha]
    dsimp only
    simp only [Bool.false_eq_true, if_false, if_pos ht]
    exact ⟨_, rfl, rfl, rfl⟩

/-- C5 witness: subscribing user 7 to the trial-free concrete plan yields
end_date and next_billing_date thirty days out. -/
theorem subscribe_user_claim_witness :
    ∃ sub, subscribe_user noSubStateW 7 1 none 0 2
        = (some sub, { noSubStateW with subs := noSubStateW.subs ++ [sub] })
      ∧ sub.end_date = 0 + planW.billing_cycle_days
      ∧ sub.next_billing_date = 0 + planW.billing_cycle_days :=
  (subscribe_user_claim noSubStateW 7 1 none 0 2).2.2.1 planW rfl rfl rfl

/-- Helper: one billing iteration never changes any subscription status. -/
theorem processRecurringOne_status (fails : Nat → Bool) (now : Int) (st : SubState) (sid : Nat) :
    ∀ b ∈ (processRecurringOne fails now st sid).subs,
      ∃ s, s ∈ st.subs ∧ b.status = s.status := by
  unfold processRecurringOne
  split
  · exact fun b hb => ⟨b, hb, rfl⟩
  · split
    · exact fun b hb => ⟨b, hb, rfl⟩
    · split
      · exact fun b hb => ⟨b, hb, rfl⟩
      · split
        · exact fun b hb => ⟨b, hb, rfl⟩
        · intro b hb
          rcases mem_of_mem_updateFirst _ _ _ _ hb with h | ⟨a, ha, _, hba⟩
          · exact ⟨b, h, rfl⟩
          · exact ⟨a, ha, by rw [hba]⟩

/-- Helper: the whole billing fold never changes any subscription status. -/
theorem foldl_processRecurringOne_status (fails : Nat → Bool) (now : Int) :
    ∀ (ids : List Nat) (st : SubState) (b : UserSubscription),
      b ∈ (ids.foldl (processRecurringOne fails now) st).subs →
      ∃ s, s ∈ st.subs ∧ b.status = s.status
  | [], st, b, hb => ⟨b, hb, rfl⟩
  | j :: ids, st, b, hb => by
    rw [List.foldl_cons] at hb
    rcases foldl_processRecurringOne_status fails now ids _ b hb with ⟨s, hs, hbs⟩
    rcases processRecurringOne_status fails now st j s hs with ⟨t, ht, hst⟩
    exact ⟨t, ht, hbs.trans hst⟩

/-- C4 counterexample: cancel_subscription never inspects the current
status, so a paused subscription is cancelled successfully — the transition
paused to cancelled, absent from the claimed transition set, occurs. -/
theorem cancel_from_paused_counterexample :
    pausedStateW.subs.map (fun s => s.status) = [.paused]
    ∧ (cancel_subscription pausedStateW 5 1 99).1 = true
    ∧ (cancel_subscription pausedStateW 5 1 99).2.subs.map (fun s => s.status)
        = [.cancelled] :=
  ⟨rfl, rfl, rfl⟩

/-- C4 amended: the status transitions the operations perform are pause from
active to paused only, resume from paused to active only, cancel from any
current status to cancelled (cancel checks existence and the cancellation
cap but never the status, so cancelled and expired are not terminal with
respect to cancel), billing sweep never changing a status, and expiry sweep
moving active subscriptions past their end_date to expired. -/
theorem subscription_status_transitions_amended
    (st : SubState) (uid sid : Nat) (now : Int) (fails : Nat → Bool) :
    ((pause_subscription st uid sid now).1 = true →
      ∃ s, s ∈ st.subs ∧ s.id = sid ∧ s.user_id = uid ∧ s.status = .active)
    ∧ (∀ b ∈ (pause_subscription st uid sid now).2.subs,
        b ∈ st.subs ∨ ∃ s, s ∈ st.subs ∧ s.status = .active
          ∧ b = { s with status := .paused, updated_at := now })
    ∧ ((resume_subscription st uid sid now).1 = true →
      ∃ s, s ∈ st.subs ∧ s.id = sid ∧ s.user_id = uid ∧ s.status = .paused)
    ∧ (∀ b ∈ (resume_subscription st uid sid now).2.subs,
        b ∈ st.subs ∨ ∃ s, s ∈ st.subs ∧ s.status = .paused
          ∧ b = { s with status := .active, updated_at := now })
    ∧ (∀ b ∈ (cancel_subscription st uid sid now).2.subs,
        b ∈ st.subs ∨ ∃ s, s ∈ st.subs
          ∧ b = { s with status := .cancelled, auto_renewal := false, cancellation_count := s.cancellation_count + 1, updated_at := now })
    ∧ (∀ b ∈ (process_recurring_payments st now fails).subs,
        ∃ s, s ∈ st.subs ∧ b.status = s.status)
    ∧ (∀ b ∈ (check_expired_subscriptions st now).subs,
        b ∈ st.subs ∨ ∃ s, s ∈ st.subs ∧ s.status = .active ∧ s.end_date ≤ now
          ∧ b = { s with status := .expired, updated_at := now }) := by
  refine ⟨?_, ?_, ?_, ?_, ?_, ?_, ?_⟩
  · intro h
    unfold pause_subscription at h
    cases hf : st.subs.find? (fun s =>
        s.id == sid && s.user_id == uid && s.status == .active) with
    | none => rw [hf] at h; simp at h
    | some s0 =>
      have hm := List.mem_of_find?_eq_some hf
      have hp := List.find?_some hf
      simp only [Bool.and_eq_true, beq_iff_eq] at hp
      exact ⟨s0, hm, hp.1.1, hp.1.2, hp.2⟩
  · intro b hb
    unfold pause_subscription at hb
    cases hf : st.subs.find? (fun s =>
        s.id == sid && s.user_id == uid && s.status == .active) with
    | none => rw [hf] at hb; exact Or.inl hb
    | some s0 =>
      rw [hf] at hb
      have hb2 : b ∈ updateFirst
          (fun s => s.id == sid && s.user_id == uid && s.status == SubscriptionStatus.active)
          (fun s => { s with status := .paused, updated_at := now }) st.subs := hb
      rcases mem_of_mem_updateFirst _ _ _ _ hb2 with h | ⟨a, ha, hqa, hba⟩
      · exact Or.inl h
      · simp only [Bool.and_eq_true, beq_iff_eq] at hqa
        exact Or.inr ⟨a, ha, hqa.2, hba⟩
  · intro h
    unfold resume_subscription at h
    cases hf : st.subs.find? (fun s =>
        s.id == sid && s.user_id == uid && s.status == .paused) with
    | none => rw [hf] at h; simp at h
    | some s0 =>
      have hm := List.mem_of_find?_eq_some hf
      have hp := List.find?_some hf
      simp only [Bool.and_eq_true, beq_iff_eq] at hp
      exact ⟨s0, hm, hp.1.1, hp.1.2, hp.2⟩
  · intro b hb
    unfold resume_subscription at hb
    cases hf : st.subs.find? (fun s =>
        s.id == sid && s.user_id == uid && s.status == .paused) with
    | none => rw [hf] at hb; exact Or.inl hb
    | some s0 =>
      rw [hf] at hb
      have hb2 : b ∈ updateFirst
          (fun s => s.id == sid && s.user_id == uid && s.status == SubscriptionStatus.paused)
          (fun s => { s with status := .active, updated_at := now }) st.subs := hb
      rcases mem_of_mem_updateFirst _ _ _ _ hb2 with h | ⟨a, ha, hqa, hba⟩
      · exact Or.inl h
      · simp only [Bool.and_eq_true, beq_iff_eq] at hqa
        exact Or.inr ⟨a, ha, hqa.2, hba⟩
  · intro b hb
    unfold cancel_subscription at hb
    split at hb
    · exact Or.inl hb
    · split at hb
      · exact Or.inl hb
      · split at hb
        · exact Or.inl hb
        · have hb2 : b ∈ updateFirst
              (fun s => s.id == sid && s.user_id == uid)
              (fun s => { s with status := .cancelled, auto_renewal := false, cancellation_count := s.cancellation_count + 1, updated_at := now })
              st.subs := hb
          rcases mem_of_mem_updateFirst _ _ _ _ hb2 with h | ⟨a, ha, _, hba⟩
          · exact Or.inl h
          · exact Or.inr ⟨a, ha, hba⟩
  · intro b hb
    unfold process_recurring_payments at hb
    exact foldl_processRecurringOne_status fails now
      ((st.subs.filter (isDue now)).map (fun s : UserSubscription => s.id)) st b hb
  · intro b hb
    unfold check_expired_subscriptions at hb
    rcases List.mem_map.mp hb with ⟨a, ha, hba⟩
    by_cases hc : (a.status == SubscriptionStatus.active && decide (a.end_date ≤ now)) = true
    · rw [if_pos hc] at hba
      simp only [Bool.and_eq_true, beq_iff_eq, decide_eq_true_eq] at hc
      exact Or.inr ⟨a, ha, hc.1, hc.2, hba.symm⟩
    · rw [if_neg hc] at hba
      exact Or.inl (hba ▸ ha)

/-- C4 witness: pausing the concrete active subscription succeeds, so an
active row with the paused ids exists beforehand. -/
theorem subscription_status_transitions_amended_witness :
    ∃ s, s ∈ activeStateW.subs ∧ s.id = 1 ∧ s.user_id = 5 ∧ s.status = .active :=
  (subscription_status_transitions_amended activeStateW 5 1 9 (fun _ => false)).1 rfl

/-- Auxiliary for C2: the truthiness-guarded clamp of the source equals a
min-clamp guarded only by the cap being nonzero. -/
theorem clamp_eq_min_of_ne_zero (d0 m : ℚ) :
    (if m ≠ 0 ∧ d0 > m then m else d0) = (if m ≠ 0 then min d0 m else d0) := by
  by_cases hm : m = 0
  · simp [hm]
  · by_cases hd : d0 > m
    · simp [hm, hd, min_eq_right (le_of_lt hd)]
    · simp [hm, hd, min_eq_left (not_lt.mp hd)]

/-- C1: validate_promo_code rejects with the reasons in exactly the claimed
order — not found or inactive first, then not yet active, expired window,
usage cap, minimum order, prior usage by this user — and computes the
discount (returning a valid result) only when every check passes; and the
lookup treats the supplied code case-insensitively, uppercasing it, so two
inputs with the same uppercasing validate identically. -/
theorem validate_follows_claim_order_and_uppercases
    (st : PromoState) (code code' : String) (user_id : Nat)
    (order_amount : ℚ) (now : Int) :
    validate_promo_code st code user_id order_amount now
      = validateClaim st code user_id order_amount now
    ∧ (upperAscii code = upperAscii code' →
        validate_promo_code st code user_id order_amount now
          = validate_promo_code st code' user_id order_amount now) := by
  constructor
  · unfold validate_promo_code validateClaim claimCheckList
    cases hf : findPromoByCode st.codes code with
    | none => rfl
    | some p =>
      cases h1 : notYetStarted p now <;>
        cases h2 : windowExpired p now <;>
          cases h3 : usageLimitHit p <;>
            cases h4 : belowMinOrderCheck p order_amount <;>
              cases h5 : userAlreadyUsed st.usages p.id user_id <;>
                simp [h1, h2, h3, h4, h5, List.find?]
  · intro h
    unfold validate_promo_code findPromoByCode
    rw [h]

/-- C1 witness: a lower-case rendering of a stored code validates exactly as
the stored upper-case code does. -/
theorem validate_follows_claim_order_and_uppercases_witness :
    validate_promo_code promoStateW "promo10" 1 1000 0
      = validate_promo_code promoStateW "PROMO10" 1 1000 0 :=
  (validate_follows_claim_order_and_uppercases promoStateW "promo10" "PROMO10"
    1 1000 0).2 (by decide)

/-- C2 counterexample: on a percentage promo with max_discount set to 0 and
a 100-unit order, the code computes a discount of 10 (the clamp is skipped,
0.0 being falsy in Python), while the claim, whose clamp applies whenever
max_discount is set, demands a discount of 0. -/
theorem calculate_discount_zero_cap_counterexample :
    calculate_discount zeroCapPromo 100 = ⟨10, 90⟩
    ∧ claimDiscount zeroCapPromo 100 = ⟨0, 100⟩ := by
  constructor
  · simp only [calculate_discount, zeroCapPromo]
    norm_num
  · simp only [claimDiscount, zeroCapPromo]
    norm_num

/-- C2 amended: the discount computation satisfies the claim with the clamp
restricted to a set and nonzero max_discount — percentage discount is
orderAmount * value/100 clamped down to max_discount when that cap is set
and nonzero; fixed discount is min(value, orderAmount), never exceeding the
order and leaving a non-negative final amount; free_service discounts the
whole order to a final amount of 0; and in every case the final amount is
the order amount minus the discount. -/
theorem calculate_discount_amended (p : PromoCode) (order_amount : ℚ) :
    calculate_discount p order_amount = claimDiscountAmended p order_amount
    ∧ (calculate_discount p order_amount).final_amount
        = order_amount - (calculate_discount p order_amount).discount_amount
    ∧ (p.promo_type = .fixed →
        (calculate_discount p order_amount).discount_amount ≤ order_amount
        ∧ 0 ≤ (calculate_discount p order_amount).final_amount)
    ∧ (p.promo_type = .free_service →
        (calculate_discount p order_amount).discount_amount = order_amount
        ∧ (calculate_discount p order_amount).final_amount = 0) := by
  refine ⟨?_, ?_, ?_, ?_⟩
  · cases hp : p.promo_type <;>
      simp only [calculate_discount, claimDiscountAmended, hp]
    cases hm : p.max_discount <;> simp [clamp_eq_min_of_ne_zero]
  · cases hp : p.promo_type <;> simp [calculate_discount, hp]
  · intro hp
    simp only [calculate_discount, hp]
    exact ⟨min_le_right _ _, sub_nonneg.mpr (min_le_right _ _)⟩
  · intro hp
    simp [calculate_discount, hp]

/-- C2 witness: a fixed promo of value 200 on an order of 150 has discount
at most the order and non-negative final amount. -/
theorem calculate_discount_amended_witness :
    (calculate_discount fixedPromoW 150).discount_amount ≤ 150
    ∧ 0 ≤ (calculate_discount fixedPromoW 150).final_amount :=
  (calculate_discount_amended fixedPromoW 150).2.2.1 rfl

/-- C6 counterexample: apply_promo_code never checks the usage cap, so two
applies on a max_uses = 1 promo drive current_uses to 2, past the cap the
claim says is never exceeded. -/
theorem apply_exceeds_cap_counterexample :
    singleUsePromo.max_uses = some 1
    ∧ ((apply_promo_code (apply_promo_code singleUseStateW 4 7 100).2 4 8 100).2.codes.map
        (fun p => (p.current_uses, p.is_active))) = [(2, false)] :=
  ⟨rfl, rfl⟩

/-- C6 amended: apply_promo_code increments current_uses unconditionally —
it looks the promo up by id with no cap check, so current_uses can pass
max_uses when apply is called on an already capped code — and deactivates
the code once the incremented count reaches a nonzero cap; for a fresh promo
with max_uses = 1, one apply leaves current_uses = 1 and is_active = false,
and a subsequent validate of that code answers not found. -/
theorem apply_cap_amended :
    (∀ (st : PromoState) (pid uid : Nat) (amt : ℚ) (p : PromoCode),
      st.codes.find? (fun q => q.id == pid) = some p →
      (apply_promo_code st pid uid amt).1
          = .success (calculate_discount p amt).discount_amount
              (calculate_discount p amt).final_amount
        ∧ { p with current_uses := p.current_uses + 1, is_active := if capReachedAfter p.max_uses (p.current_uses + 1) then false else p.is_active }
            ∈ (apply_promo_code st pid uid amt).2.codes)
    ∧ (∀ (p : PromoCode) (us : List PromoCodeUsage) (uid uid2 : Nat) (amt amt2 : ℚ)
        (now : Int) (code : String),
        p.max_uses = some 1 → p.current_uses = 0 → upperAscii code = p.code →
        ((apply_promo_code ⟨[p], us⟩ p.id uid amt).2.codes.map
            (fun q => (q.current_uses, q.is_active))) = [(1, false)]
        ∧ validate_promo_code (apply_promo_code ⟨[p], us⟩ p.id uid amt).2 code uid2 amt2 now
            = .invalid .notFound) := by
  constructor
  · intro st pid uid amt p hf
    constructor
    · unfold apply_promo_code
      rw [hf]
    · have hm := mem_updateFirst_of_find?
        (fun q => q.id == pid)
        (fun q => { q with current_uses := q.current_uses + 1, is_active := if capReachedAfter q.max_uses (q.current_uses + 1) then false else q.is_active })
        st.codes p hf
      unfold apply_promo_code
      rw [hf]
      exact hm
  · intro p us uid uid2 amt amt2 now code h1 h2 hup
    have hfind : ([p] : List PromoCode).find? (fun q => q.id == p.id) = some p :=
      List.find?_cons_of_pos _ (by simp)
    constructor
    · unfold apply_promo_code
      dsimp only
      rw [hfind]
      dsimp only
      unfold updateFirst
      simp [h1, h2, capReachedAfter]
    · unfold validate_promo_code findPromoByCode
      unfold apply_promo_code
      dsimp only
      rw [hfind]
      dsimp only
      unfold updateFirst
      simp [h1, h2, hup, capReachedAfter, List.find?]

/-- C6 witness: one apply of the fresh single-use promo reaches the cap,
deactivates the code, and a following validate answers not found. -/
theorem apply_cap_amended_witness :
    ((apply_promo_code singleUseStateW 4 7 100).2.codes.map
        (fun q => (q.current_uses, q.is_active))) = [(1, false)]
    ∧ validate_promo_code (apply_promo_code singleUseStateW 4 7 100).2 "once" 8 100 0
        = .invalid .notFound :=
  apply_cap_amended.2 singleUsePromo [] 7 8 100 100 0 "once" rfl rfl (by decide)

/-- C7 counterexample: a code whose link matches (owned by the referrer and
active) but sits at its use cap makes register_referral return false and
record nothing, where the claim demands a successful unattributed
registration. -/
theorem register_referral_capped_link_counterexample :
    findReferralLink refStateAtCapW.links 10 "REF" = some cappedLink
    ∧ register_referral refStateAtCapW 10 20 (some "REF") = (false, refStateAtCapW) :=
  ⟨rfl, rfl⟩

/-- C7 amended: register_referral fails and records nothing when the
referred user already has a referral row, and also when the supplied code
matches a link of the referrer that is active but at its use cap; a matching
link under its cap attributes the referral and increments the link counter;
only when no link matches (wrong owner, inactive or unknown code) — or no
code is given — is the referral recorded without attribution with the call
returning true. -/
theorem register_referral_amended (st : RefState) (referrer referred : Nat) :
    (st.referrals.any (fun r => r.referred_id == referred) = true →
      ∀ oc, register_referral st referrer referred oc = (false, st))
    ∧ (st.referrals.any (fun r => r.referred_id == referred) = false →
       (∀ c l, (c == "") = false → findReferralLink st.links referrer c = some l →
          (linkCapReached l = true →
            register_referral st referrer referred (some c) = (false, st))
          ∧ (linkCapReached l = false →
            (register_referral st referrer referred (some c)).1 = true
            ∧ (⟨referrer, referred, some l.id⟩ : Referral)
                ∈ (register_referral st referrer referred (some c)).2.referrals
            ∧ { l with current_uses := l.current_uses + 1 }
                ∈ (register_referral st referrer referred (some c)).2.links))
       ∧ (∀ c, (c == "") = false → findReferralLink st.links referrer c = none →
           register_referral st referrer referred (some c)
             = (true, { st with referrals := st.referrals ++ [⟨referrer, referred, none⟩] }))
       ∧ register_referral st referrer referred none
           = (true, { st with referrals := st.referrals ++ [⟨referrer, referred, none⟩] })
       ∧ register_referral st referrer referred (some "")
           = (true, { st with referrals := st.referrals ++ [⟨referrer, referred, none⟩] })) := by
  constructor
  · intro h oc
    unfold register_referral
    rw [h]
    rfl
  · intro h
    refine ⟨?_, ?_, ?_, ?_⟩
    · intro c l hc hfind
      have hfind2 : st.links.find?
          (fun k => k.code == c && k.is_active && k.user_id == referrer) = some l := hfind
      constructor
      · intro hcap
        unfold register_referral
        rw [h]
        simp only [Bool.false_eq_true, if_false]
        rw [hc]
        simp only [Bool.false_eq_true, if_false]
        rw [hfind]
        dsimp only
        rw [hcap]
        rfl
      · intro hcap
        have hm := mem_updateFirst_of_find?
          (fun k => k.code == c && k.is_active && k.user_id == referrer)
          (fun k => { k with current_uses := k.current_uses + 1 })
          st.links l hfind2
        refine ⟨?_, ?_, ?_⟩
        · unfold register_referral
          rw [h]
          simp only [Bool.false_eq_true, if_false]
          rw [hc]
          simp only [Bool.false_eq_true, if_false]
          rw [hfind]
          dsimp only
          rw [hcap]
          rfl
        · unfold register_referral
          rw [h]
          simp only [Bool.false_eq_true, if_false]
          rw [hc]
          simp only [Bool.false_eq_true, if_false]
          rw [hfind]
          dsimp only
          rw [hcap]
          simp only [Bool.false_eq_true, if_false]
          simp
        · unfold register_referral
          rw [h]
          simp only [Bool.false_eq_true, if_false]
          rw [hc]
          simp only [Bool.false_eq_true, if_false]
          rw [hfind]
          dsimp only
          rw [hcap]
          simp only [Bool.false_eq_true, if_false]
          exact hm
    · intro c hc hfind
      unfold register_referral
      rw [h]
      simp only [Bool.false_eq_true, if_false]
      rw [hc]
      simp only [Bool.false_eq_true, if_false]
      rw [hfind]
    · unfold register_referral
      rw [h]
      simp only [Bool.false_eq_true, if_false]
    · unfold register_referral
      rw [h]
      simp only [Bool.false_eq_true, if_false]
      rfl

/-- C7 witness: with an empty referral table and no code, registration
succeeds and records an unattributed referral. -/
theorem register_referral_amended_witness :
    register_referral refStateAtCapW 10 21 none
      = (true, { refStateAtCapW with
          referrals := refStateAtCapW.referrals ++ [⟨10, 21, none⟩] }) :=
  ((register_referral_amended refStateAtCapW 10 21).2 rfl).2.2.1

/-- C8: calculate_referral_reward pays paymentAmount * percent / 100 when
the referral has an attributing link with positive reward_percent, the flat
reward_amount of the link otherwise, and the global ten-percent default when
no attributing link resolves — concretely 100 out of 500 at twenty percent
and 50 out of 500 with no link. -/
theorem reward_matches_claim :
    (∀ (st : RefState) (amt : ℚ) (r : Referral) (lid : Nat) (l : ReferralLink),
      r.referral_link_id = some lid →
      st.links.find? (fun k => k.id == lid) = some l →
      (0 < l.reward_percent →
        calculate_referral_reward st amt r = amt * (l.reward_percent / 100))
      ∧ (¬ 0 < l.reward_percent →
        calculate_referral_reward st amt r = l.reward_amount))
    ∧ (∀ (st : RefState) (amt : ℚ) (r : Referral),
        r.referral_link_id = none →
        calculate_referral_reward st amt r = amt * (1 / 10))
    ∧ (∀ (st : RefState) (amt : ℚ) (r : Referral) (lid : Nat),
        r.referral_link_id = some lid →
        st.links.find? (fun k => k.id == lid) = none →
        calculate_referral_reward st amt r = amt * (1 / 10))
    ∧ calculate_referral_reward rewardStateW 500 referral20W = 100
    ∧ calculate_referral_reward rewardStateW 500 referralNoLinkW = 50 := by
  refine ⟨?_, ?_, ?_, ?_, ?_⟩
  · intro st amt r lid l hr hfind
    constructor
    · intro hpos
      unfold calculate_referral_reward
      rw [hr]
      dsimp only
      rw [hfind]
      dsimp only
      rw [if_pos hpos]
    · intro hneg
      unfold calculate_referral_reward
      rw [hr]
      dsimp only
      rw [hfind]
      dsimp only
      rw [if_neg hneg]
  · intro st amt r hr
    unfold calculate_referral_reward
    rw [hr]
  · intro st amt r lid hr hfind
    unfold calculate_referral_reward
    rw [hr]
    dsimp only
    rw [hfind]
  · norm_num [calculate_referral_reward, rewardStateW, referral20W, link20W, List.find?]
  · norm_num [calculate_referral_reward, rewardStateW, referralNoLinkW]

/-- C8 witness: a referral without attributing link is paid the ten-percent
default of a 500 payment. -/
theorem reward_matches_claim_witness :
    calculate_referral_reward rewardStateW 500 referralNoLinkW = 500 * (1 / 10) :=
  reward_matches_claim.2.1 rewardStateW 500 referralNoLinkW rfl

/-- C9: create_promo_code compares the raw argument case-sensitively against
stored codes while storing codes uppercased: in a store of uppercased codes
holding an active promo with code C, an input s with upperAscii s = C and
s different from C passes the duplicate check (creation proceeds), although
validate resolves s and C to the same stored promo. -/
theorem create_promo_duplicate_check_case_mismatch
    (st : PromoState) (p : PromoCode) (s : String)
    (pt : PromoCodeType) (dv : ℚ) (vt : Option Int) (mu : Option Nat)
    (md : Option ℚ) (mo : ℚ) (newId : Nat) (now : Int)
    (hnorm : ∀ q ∈ st.codes, upperAscii q.code = q.code)
    (hmem : p ∈ st.codes) (hup : upperAscii s = p.code) (hne : s ≠ p.code)
    (hact : p.is_active = true) :
    (create_promo_code st s pt dv vt mu md mo newId now).isSome = true
    ∧ findPromoByCode st.codes s = findPromoByCode st.codes p.code
    ∧ (findPromoByCode st.codes s).isSome = true := by
  have hdup : st.codes.any (fun q => q.code == s) = false := by
    rw [List.any_eq_false]
    intro q hq
    simp only [beq_iff_eq]
    intro he
    have hus : upperAscii s = s := by rw [← he]; exact hnorm q hq
    exact hne (by rw [← hup, hus])
  refine ⟨?_, ?_, ?_⟩
  · unfold create_promo_code
    rw [hdup]
    rfl
  · unfold findPromoByCode
    rw [hup, hnorm p hmem]
  · unfold findPromoByCode
    rw [hup]
    simp only [List.find?_isSome]
    exact ⟨p, hmem, by simp [hact]⟩

/-- C9 witness: with the stored code PROMO10, the input promo10 passes the
duplicate check of create_promo_code yet validate resolves both spellings to
the same promo. -/
theorem create_promo_duplicate_check_case_mismatch_witness :
    (create_promo_code promoStateW "promo10" .percentage 10 none none none 0 9 0).isSome = true
    ∧ findPromoByCode promoStateW.codes "promo10"
        = findPromoByCode promoStateW.codes promoTenW.code
    ∧ (findPromoByCode promoStateW.codes "promo10").isSome = true :=
  create_promo_duplicate_check_case_mismatch promoStateW promoTenW "promo10"
    .percentage 10 none none none 0 9 0
    (by intro q hq
        simp only [promoStateW, promoTenW, List.mem_singleton] at hq
        subst hq
        rfl)
    (by simp [promoStateW])
    (by decide) (by decide) rfl

/-- Helper: one billing iteration never touches the plans table. -/
theorem processRecurringOne_plans (fails : Nat → Bool) (now : Int) (st : SubState) (sid : Nat) :
    (processRecurringOne fails now st sid).plans = st.plans := by
  unfold processRecurringOne
  split
  · rfl
  · split
    · rfl
    · split
      · rfl
      · split
        · rfl
        · rfl

/-- Helper: one billing iteration preserves the id column of the
subscriptions table rowwise. -/
theorem processRecurringOne_ids (fails : Nat → Bool) (now : Int) (st : SubState) (sid : Nat) :
    (processRecurringOne fails now st sid).subs.map (fun s : UserSubscription => s.id)
      = st.subs.map (fun s : UserSubscription => s.id) := by
  unfold processRecurringOne
  split
  · rfl
  · split
    · rfl
    · split
      · rfl
      · split
        · rfl
        · apply updateFirst_map_eq
          intro a
          rfl

/-- Helper: a subscription whose id is not the processed one survives a
billing iteration unchanged. -/
theorem processRecurringOne_frame (fails : Nat → Bool) (now : Int) (st : SubState) (sid : Nat)
    (b : UserSubscription) (hb : b ∈ st.subs) (hne : (b.id == sid) = false) :
    b ∈ (processRecurringOne fails now st sid).subs := by
  unfold processRecurringOne
  split
  · exact hb
  · split
    · exact hb
    · split
      · exact hb
      · split
        · exact hb
        · apply mem_updateFirst_of_neg
          · exact hb
          · exact hne

/-- Helper: a billing iteration only appends payments. -/
theorem processRecurringOne_payments (fails : Nat → Bool) (now : Int) (st : SubState) (sid : Nat) :
    ∀ p ∈ st.payments, p ∈ (processRecurringOne fails now st sid).payments := by
  unfold processRecurringOne
  split
  · exact fun p hp => hp
  · split
    · exact fun p hp => hp
    · split
      · exact fun p hp => hp
      · split
        · exact fun p hp => List.mem_append_left _ hp
        · exact fun p hp => List.mem_append_left _ hp

/-- Helper: the billing fold leaves the plans table unchanged. -/
theorem foldl_processRecurringOne_plans (fails : Nat → Bool) (now : Int) :
    ∀ (ids : List Nat) (st : SubState),
      (ids.foldl (processRecurringOne fails now) st).plans = st.plans
  | [], _ => rfl
  | j :: ids, st => by
    rw [List.foldl_cons, foldl_processRecurringOne_plans fails now ids _,
      processRecurringOne_plans fails now st j]

/-- Helper: the billing fold preserves the id column rowwise. -/
theorem foldl_processRecurringOne_ids (fails : Nat → Bool) (now : Int) :
    ∀ (ids : List Nat) (st : SubState),
      (ids.foldl (processRecurringOne fails now) st).subs.map (fun s : UserSubscription => s.id)
        = st.subs.map (fun s : UserSubscription => s.id)
  | [], _ => rfl
  | j :: ids, st => by
    rw [List.foldl_cons, foldl_processRecurringOne_ids fails now ids _,
      processRecurringOne_ids fails now st j]

/-- Helper: a subscription none of whose ids are processed survives the
whole billing fold unchanged. -/
theorem foldl_processRecurringOne_frame (fails : Nat → Bool) (now : Int) :
    ∀ (ids : List Nat) (st : SubState) (b : UserSubscription),
      b ∈ st.subs → (∀ j ∈ ids, (b.id == j) = false) →
      b ∈ (ids.foldl (processRecurringOne fails now) st).subs
  | [], _, _, hb, _ => hb
  | j :: ids, st, b, hb, hne => by
    rw [List.foldl_cons]
    exact foldl_processRecurringOne_frame fails now ids _ b
      (processRecurringOne_frame fails now st j b hb (hne j (List.mem_cons_self j ids)))
      (fun k hk => hne k (List.mem_cons_of_mem j hk))

/-- Helper: the billing fold only appends payments. -/
theorem foldl_processRecurringOne_payments (fails : Nat → Bool) (now : Int) :
    ∀ (ids : List Nat) (st : SubState) (p : Payment), p ∈ st.payments →
      p ∈ (ids.foldl (processRecurringOne fails now) st).payments
  | [], _, _, hp => hp
  | j :: ids, st, p, hp => by
    rw [List.foldl_cons]
    exact foldl_processRecurringOne_payments fails now ids _ p
      (processRecurringOne_payments fails now st j p hp)

/-- Helper: processing the id of a present subscription whose plan resolves
active, with no charge failure, updates exactly that subscription — paid
total grows by the plan price, next_billing_date advances by the cycle,
end_date becomes the new next_billing_date — and appends a completed payment
of the plan price for that user. -/
theorem processRecurringOne_hit (fails : Nat → Bool) (now : Int) (st : SubState)
    (sub : UserSubscription) (plan : SubscriptionPlan)
    (hnd : (st.subs.map (fun s : UserSubscription => s.id)).Nodup)
    (hmem : sub ∈ st.subs)
    (hplan : st.plans.find? (fun pl => pl.id == sub.plan_id) = some plan)
    (hpa : plan.is_active = true)
    (hok : fails sub.id = false) :
    (∃ b, b ∈ (processRecurringOne fails now st sub.id).subs
      ∧ b.id = sub.id
      ∧ b.total_paid = sub.total_paid + plan.price
      ∧ b.next_billing_date = sub.next_billing_date + plan.billing_cycle_days
      ∧ b.end_date = sub.next_billing_date + plan.billing_cycle_days)
    ∧ (∃ q, q ∈ (processRecurringOne fails now st sub.id).payments
      ∧ q.user_id = sub.user_id ∧ q.amount = plan.price
      ∧ q.status = PaymentStatus.completed) := by
  have hfind : st.subs.find? (fun s => s.id == sub.id) = some sub :=
    find?_key_eq_of_nodup (fun s => s.id) st.subs sub hnd hmem
  unfold processRecurringOne
  rw [hfind]
  dsimp only
  rw [hplan]
  dsimp only
  rw [hpa]
  simp only [Bool.not_true, Bool.false_eq_true, if_false]
  rw [hok]
  simp only [Bool.false_eq_true, if_false]
  constructor
  · have hm := mem_updateFirst_of_find?
      (fun s => s.id == sub.id)
      (fun s => { s with last_payment_id := some st.payments.length, total_paid := s.total_paid + plan.price, next_billing_date := s.next_billing_date + plan.billing_cycle_days, end_date := s.next_billing_date + plan.billing_cycle_days, updated_at := now })
      st.subs sub hfind
    exact ⟨_, hm, rfl, rfl, rfl, rfl⟩
  · exact ⟨_, List.mem_append_right _ (List.mem_singleton_self _), rfl, rfl, rfl⟩

/-- C3 counterexample: with now = 15, both subscriptions are active,
auto-renewing and past their next_billing_date, yet the sweep skips the one
without a saved payment method entirely (its dates and the payments table
untouched on its account) and, for the processed one, does not advance
end_date by the cycle: end_date is set to the new next_billing_date, here
leaving it at 40 where the claim demands 70. -/
theorem billing_sweep_counterexample :
    (process_recurring_payments dueStateW 15 (fun _ => false)).subs.map
        (fun s => (s.id, s.next_billing_date, s.end_date)) = [(1, 40, 40), (2, 10, 40)]
    ∧ (process_recurring_payments dueStateW 15 (fun _ => false)).payments.length = 1 :=
  ⟨rfl, rfl⟩

/-- C3 amended: one billing-sweep pass, for every subscription that is
active with auto_renewal, next_billing_date reached and a saved payment
method, whose plan exists and is active, and whose charge does not fail:
appends a payment for the plan price that ends completed, increases
total_paid by exactly the plan price, advances next_billing_date by exactly
billing_cycle_days, and sets end_date to the new next_billing_date; and this
holds whatever other due subscriptions fail, the failures being isolated
per item. -/
theorem billing_sweep_amended (st : SubState) (now : Int) (fails : Nat → Bool)
    (sub : UserSubscription) (plan : SubscriptionPlan)
    (hnd : (st.subs.map (fun s : UserSubscription => s.id)).Nodup)
    (hmem : sub ∈ st.subs)
    (hdue : isDue now sub = true)
    (hplan : st.plans.find? (fun pl => pl.id == sub.plan_id) = some plan)
    (hpa : plan.is_active = true)
    (hok : fails sub.id = false) :
    (∃ b, b ∈ (process_recurring_payments st now fails).subs
      ∧ b.id = sub.id
      ∧ b.total_paid = sub.total_paid + plan.price
      ∧ b.next_billing_date = sub.next_billing_date + plan.billing_cycle_days
      ∧ b.end_date = sub.next_billing_date + plan.billing_cycle_days)
    ∧ (∃ q, q ∈ (process_recurring_payments st now fails).payments
      ∧ q.user_id = sub.user_id ∧ q.amount = plan.price
      ∧ q.status = PaymentStatus.completed) := by
  have hsubL : sub.id ∈ (st.subs.filter (isDue now)).map (fun s : UserSubscription => s.id) :=
    List.mem_map_of_mem _ (List.mem_filter.mpr ⟨hmem, hdue⟩)
  obtain ⟨l₁, l₂, hsplit⟩ := List.append_of_mem hsubL
  have hndL : ((st.subs.filter (isDue now)).map (fun s : UserSubscription => s.id)).Nodup :=
    List.Nodup.sublist ((List.filter_sublist _).map (fun s : UserSubscription => s.id)) hnd
  rw [hsplit] at hndL
  rcases List.nodup_append.mp hndL with ⟨_, hnd2, hdisj⟩
  have hnotin1 : sub.id ∉ l₁ := fun hin =>
    hdisj hin (List.mem_cons_self sub.id l₂)
  have hnotin2 : sub.id ∉ l₂ := (List.nodup_cons.mp hnd2).1
  have hne1 : ∀ j ∈ l₁, (sub.id == j) = false := by
    intro j hj
    simp only [beq_eq_false_iff_ne, ne_eq]
    intro he
    exact hnotin1 (by rw [he]; exact hj)
  have hmem1 : sub ∈ (l₁.foldl (processRecurringOne fails now) st).subs :=
    foldl_processRecurringOne_frame fails now l₁ st sub hmem hne1
  have hids1 : (l₁.foldl (processRecurringOne fails now) st).subs.map
      (fun s : UserSubscription => s.id) = st.subs.map (fun s : UserSubscription => s.id) :=
    foldl_processRecurringOne_ids fails now l₁ st
  have hnd1 : ((l₁.foldl (processRecurringOne fails now) st).subs.map
      (fun s : UserSubscription => s.id)).Nodup := by
    rw [hids1]; exact hnd
  have hplan1 : (l₁.foldl (processRecurringOne fails now) st).plans.find?
      (fun pl => pl.id == sub.plan_id) = some plan := by
    rw [foldl_processRecurringOne_plans fails now l₁ st]; exact hplan
  obtain ⟨⟨b, hbmem, hbid, hbt, hbn, hbe⟩, ⟨q, hqmem, hqu, hqa, hqs⟩⟩ :=
    processRecurringOne_hit fails now (l₁.foldl (processRecurringOne fails now) st)
      sub plan hnd1 hmem1 hplan1 hpa hok
  have hne2 : ∀ j ∈ l₂, (b.id == j) = false := by
    intro j hj
    rw [hbid]
    simp only [beq_eq_false_iff_ne, ne_eq]
    intro he
    exact hnotin2 (by rw [he]; exact hj)
  unfold process_recurring_payments
  rw [hsplit, List.foldl_append, List.foldl_cons]
  constructor
  · exact ⟨b, foldl_processRecurringOne_frame fails now l₂ _ b hbmem hne2,
      hbid, hbt, hbn, hbe⟩
  · exact ⟨q, foldl_processRecurringOne_payments fails now l₂ _ q hqmem, hqu, hqa, hqs⟩

/-- C3 witness: in the concrete due state, the subscription with the saved
payment method is billed in one pass — paid total up by the plan price, next
billing advanced one cycle, end date set to the new next billing date, and a
completed payment recorded. -/
theorem billing_sweep_amended_witness :
    (∃ b, b ∈ (process_recurring_payments dueStateW 15 (fun _ => false)).subs
      ∧ b.id = dueTrialSubW.id
      ∧ b.total_paid = dueTrialSubW.total_paid + planW.price
      ∧ b.next_billing_date = dueTrialSubW.next_billing_date + planW.billing_cycle_days
      ∧ b.end_date = dueTrialSubW.next_billing_date + planW.billing_cycle_days)
    ∧ (∃ q, q ∈ (process_recurring_payments dueStateW 15 (fun _ => false)).payments
      ∧ q.user_id = dueTrialSubW.user_id ∧ q.amount = planW.price
      ∧ q.status = PaymentStatus.completed) :=
  billing_sweep_amended dueStateW 15 (fun _ => false) dueTrialSubW planW
    (by decide) (by simp [dueStateW]) rfl rfl rfl rfl

end TelegramBot
